import Mathlib

/-!
Verification of the prediction-normalization core of the next-train-server
repository (a Cloudflare Worker proxying AC Transit and BART real-time data).

The TypeScript sources are shallowly embedded below:
* `AcTransitClient` (src/clients/AcTransitClient.ts) — bus adapter,
* `BartClient` (the rail adapter variant with direction/line filtering),
* `Stops.handle` (src/endpoints/stops.ts) — stop consolidation,
* `StopDirections.handle` (src/endpoints/stopDirections.ts) — direction
  resolution,
* `TransitPredictions.handle` (src/endpoints/transitPredictions.ts) — the
  HTTP error mapping around the bus adapter.

Conventions of the embedding:
* JavaScript `Date` instants are integers counting milliseconds since the
  Unix epoch; an Invalid Date is `Option.none`.  `Date.prototype.toISOString`
  is lossless at millisecond precision, so a serialized instant is modelled
  by the integer itself; on an Invalid Date it throws, which is modelled by
  `Except.error`.
* Strings are processed through their character lists; the sources only ever
  manipulate ASCII data, and the ASCII fragments of `toLowerCase`,
  `toUpperCase`, `trim`, `split`, `substring` and `parseInt` are modelled
  (the legacy hexadecimal form of `parseInt` never arises for these inputs).
* Machine floats never undergo arithmetic in the modelled code (coordinates
  are only copied), so coordinates are modelled as integers.
* Exceptions are `Except String`; network fetch and JSON/zod parsing are the
  boundary of the embedding: each client function takes the already-parsed
  upstream payload as an argument.
-/

namespace NextTrain

/-- Is `c` an ECMAScript StrWhiteSpaceChar, the set skipped by `parseInt` and
removed by `String.prototype.trim`: TAB, LF, VT, FF, CR, space, NBSP, the
Unicode Zs spaces, the line/paragraph separators, and ZWNBSP. -/
def isJsWs (c : Char) : Bool :=
  c.toNat == 0x9 || c.toNat == 0xA || c.toNat == 0xB || c.toNat == 0xC ||
  c.toNat == 0xD || c.toNat == 0x20 || c.toNat == 0xA0 || c.toNat == 0x1680 ||
  (0x2000 ≤ c.toNat && c.toNat ≤ 0x200A) || c.toNat == 0x2028 ||
  c.toNat == 0x2029 || c.toNat == 0x202F || c.toNat == 0x205F ||
  c.toNat == 0x3000 || c.toNat == 0xFEFF

/-- Value of a (non-empty) list of decimal digits. -/
def digitsToNat (cs : List Char) : Nat :=
  cs.foldl (fun a c => a * 10 + (c.toNat - 48)) 0

/-- Decimal parse of the longest digit run at the head of `cs`; `none` when
there is no digit (JavaScript `NaN`). -/
def parseDigits (cs : List Char) : Option Nat :=
  match cs.takeWhile Char.isDigit with
  | [] => none
  | ds => some (digitsToNat ds)

/-- Is `c` a hexadecimal digit. -/
def isHexDigit (c : Char) : Bool :=
  c.isDigit || ('a' ≤ c && c ≤ 'f') || ('A' ≤ c && c ≤ 'F')

/-- Value of one hexadecimal digit. -/
def hexVal (c : Char) : Nat :=
  if c.isDigit then c.toNat - 48
  else if 'A' ≤ c ∧ c ≤ 'F' then c.toNat - 55
  else c.toNat - 87

/-- Value of a (non-empty) list of hexadecimal digits. -/
def hexDigitsToNat (cs : List Char) : Nat :=
  cs.foldl (fun a c => a * 16 + hexVal c) 0

/-- Hexadecimal parse of the longest hex-digit run at the head of `cs`;
`none` when there is no hex digit (JavaScript `NaN`). -/
def parseHexDigits (cs : List Char) : Option Nat :=
  match cs.takeWhile isHexDigit with
  | [] => none
  | ds => some (hexDigitsToNat ds)

/-- The unsigned part of `parseInt` with unspecified radix: a "0x"/"0X"
prefix switches to hexadecimal (so `parseInt("0xzz")` is `NaN`), anything
else is parsed as the longest decimal digit run. -/
def parseUnsigned (cs : List Char) : Option Nat :=
  match cs with
  | '0' :: 'x' :: rest => parseHexDigits rest
  | '0' :: 'X' :: rest => parseHexDigits rest
  | _ => parseDigits cs

/-- JavaScript `parseInt(s)` (radix argument omitted): skip leading
whitespace, optional sign, then either the "0x"-prefixed hexadecimal form or
the longest run of decimal digits; trailing garbage is ignored; no digits
means `NaN` (`none`). -/
def jsParseInt (s : String) : Option Int :=
  match s.data.dropWhile isJsWs with
  | '-' :: rest => (parseUnsigned rest).map (fun n => -(n : Int))
  | '+' :: rest => (parseUnsigned rest).map (fun n => (n : Int))
  | rest => (parseUnsigned rest).map (fun n => (n : Int))

/-- JavaScript `s.substring(a, b)` (for `a ≤ b`, the case used by the source). -/
def jsSubstring (s : String) (a b : Nat) : String :=
  ((s.data.drop a).take (b - a)).asString

/-- JavaScript `s.substring(a)`. -/
def jsSubstringFrom (s : String) (a : Nat) : String :=
  (s.data.drop a).asString

/-- JavaScript `s.split(sep)` for a single-character separator, on character
lists: `"".split(",")` is `[""]`, `",".split(",")` is `["", ""]`. -/
def splitCh (sep : Char) : List Char → List (List Char)
  | [] => [[]]
  | c :: cs =>
    match splitCh sep cs with
    | [] => if c == sep then [[], []] else [[c]]
    | g :: gs => if c == sep then [] :: g :: gs else (c :: g) :: gs

/-- JavaScript `s.trim()` (ASCII whitespace). -/
def jsTrim (s : String) : String :=
  (((s.data.dropWhile isJsWs).reverse.dropWhile isJsWs).reverse).asString

/-- ASCII fragment of `String.prototype.toLowerCase`. -/
def asciiLowerChar (c : Char) : Char :=
  if 'A' ≤ c ∧ c ≤ 'Z' then Char.ofNat (c.toNat + 32) else c

/-- ASCII fragment of `String.prototype.toUpperCase`. -/
def asciiUpperChar (c : Char) : Char :=
  if 'a' ≤ c ∧ c ≤ 'z' then Char.ofNat (c.toNat - 32) else c

/-- JavaScript `s.toLowerCase()` on ASCII data. -/
def jsToLower (s : String) : String :=
  (s.data.map asciiLowerChar).asString

/-- JavaScript `s.toUpperCase()` on ASCII data. -/
def jsToUpper (s : String) : String :=
  (s.data.map asciiUpperChar).asString

/-- Does `pat` occur as a contiguous run inside `l`? -/
def runOccurs (pat : List Char) : List Char → Bool
  | [] => pat.isEmpty
  | c :: rest => pat.isPrefixOf (c :: rest) || runOccurs pat rest

/-- JavaScript `s.includes(pat)`. -/
def jsIncludes (s pat : String) : Bool :=
  runOccurs pat.data s.data

/-- JavaScript `s.toLowerCase().charAt(0)`: the first character of the
lower-cased string as a one-character string, or `""` when `s` is empty. -/
def firstLowerChar (s : String) : String :=
  match (jsToLower s).data with
  | [] => ""
  | c :: _ => String.mk [c]

/-- Days since 1970-01-01 of the Gregorian date `y-m-d` with month `m` in
1..12; `d` may lie outside the month and extends linearly, exactly matching
the day-overflow normalisation of the JavaScript `Date` constructor. -/
def daysFromCivil (y m d : Int) : Int :=
  let y1 := if m ≤ 2 then y - 1 else y
  let era := y1.fdiv 400
  let yoe := y1 - era * 400
  let mp := (m + 9).fmod 12
  let doy := (153 * mp + 2).fdiv 5 + (d - 1)
  let doe := yoe * 365 + yoe.fdiv 4 - yoe.fdiv 100 + doy
  era * 146097 + doe - 719468

/-- The two-digit-year rule of the `Date(year, ...)` constructor: a year in
0..99 denotes 1900+year. -/
def jsYearAdjust (y : Int) : Int :=
  if 0 ≤ y ∧ y ≤ 99 then y + 1900 else y

/-- The raw time value `MakeDate(MakeDay(y, m, d), MakeTime(h, min, 0, 0))`
of the `Date` constructor, in milliseconds, before TimeClip: `m` is 0-based,
out-of-range month/day/hour/minute arguments are normalised by linear carry,
and the two-digit-year rule applies. -/
def jsTimeValue (y m d h min : Int) : Int :=
  let ya := jsYearAdjust y
  let ym := ya * 12 + m
  (daysFromCivil (ym.fdiv 12) (ym.fmod 12 + 1) d) * 86400000
    + h * 3600000 + min * 60000

/-- ECMAScript TimeClip: a time value farther than 8.64e15 milliseconds from
the epoch makes the `Date` Invalid (`none`). -/
def timeClip (t : Int) : Option Int :=
  if t.natAbs ≤ 8640000000000000 then some t else none

/-- JavaScript `Math.round(d / 60000)` for an integral millisecond
difference `d` (round half toward positive infinity). -/
def jsRoundMinutes (d : Int) : Int :=
  (d + 30000).fdiv 60000

/-! ## The normalized prediction record

`TransitPrediction` of src/clients/AcTransitClient.ts (the rail adapter's
`BartPrediction` is field-for-field identical).  The two ISO-8601 instant
strings are modelled by their millisecond values. -/

structure TransitPrediction where
  arrivalTime : Int
  departureTime : Int
  stopName : String
  stopId : String
  route : String
  direction : String
  vehicleId : String
  minutesUntilArrival : Int
  deriving Repr, DecidableEq

/-! ## AC Transit client (src/clients/AcTransitClient.ts) -/

namespace AcTransitClient

/-- One raw AC Transit prediction (`AcTransitPrediction` zod schema); only the
fields the client reads are carried (the optional upstream fields `tmstmp`,
`typ`, `dstp`, `rtdd`, `des`, `tablockid`, `tatripid`, `dly`, `prdctdn`,
`zone` are never used by `getPredictions`). -/
structure AcPrediction where
  stpnm : String
  stpid : String
  vid : String
  rt : String
  rtdir : String
  prdtm : String
  deriving Repr, DecidableEq

/-- One entry of the upstream error array. -/
structure AcError where
  msg : String
  deriving Repr, DecidableEq

/-- The `bustime-response` envelope: both members are optional arrays. -/
structure AcEnvelope where
  prd : Option (List AcPrediction)
  error : Option (List AcError)
  deriving Repr, DecidableEq

/-- `AcTransitClient.parseAcTransitDateTime`, parametrised by the fixed UTC
offset (in milliseconds, east positive) of the executing environment's local
timezone, since `new Date(year, month, day, hours, minutes)` interprets its
arguments in that local timezone — the source comments that it assumes the
Worker runs in UTC (`envOffsetMs = 0`).  The result is the epoch-millisecond
instant, or `none` for an Invalid Date (any field parsing to `NaN`, or a time
value beyond the TimeClip range). -/
def timeParts (dateTimeStr : String) : List (List Char) :=
  splitCh ':' (jsSubstringFrom dateTimeStr 9).data

/-- The `hours` component destructured from `time.split(":").map(parseInt)`. -/
def hoursField (dateTimeStr : String) : Option Int :=
  match timeParts dateTimeStr with
  | [] => none
  | t0 :: _ => jsParseInt t0.asString

/-- The `minutes` component destructured from `time.split(":").map(parseInt)`;
a missing second part is `undefined`, whose `parseInt` is `NaN`. -/
def minutesField (dateTimeStr : String) : Option Int :=
  match (timeParts dateTimeStr).get? 1 with
  | some t1 => jsParseInt t1.asString
  | none => none

def parseAcTransitDateTime (envOffsetMs : Int) (dateTimeStr : String) : Option Int :=
  match jsParseInt (jsSubstring dateTimeStr 0 4),
        jsParseInt (jsSubstring dateTimeStr 4 6),
        jsParseInt (jsSubstring dateTimeStr 6 8),
        hoursField dateTimeStr, minutesField dateTimeStr with
  | some y, some mo, some d, some h, some mi =>
      timeClip (jsTimeValue y (mo - 1) d h mi - envOffsetMs)
  | _, _, _, _, _ => none

/-- Sequential exception-propagating `map`, the behaviour of
`Array.prototype.map` when the callback can throw. -/
def mapThrow (f : α → Except String β) : List α → Except String (List β)
  | [] => .ok []
  | x :: xs =>
    match f x with
    | .error e => .error e
    | .ok y =>
      match mapThrow f xs with
      | .error e => .error e
      | .ok ys => .ok (y :: ys)

/-- Conversion of one raw prediction inside `getPredictions`: normalize the
timestamp (Invalid Date makes the later `toISOString()` throw a RangeError),
set departure one minute before arrival, clamp the minutes-until-arrival at
zero. -/
def convertPrediction (now : Int) (pred : AcPrediction) : Except String TransitPrediction :=
  match parseAcTransitDateTime 0 pred.prdtm with
  | none => .error "RangeError: Invalid time value"
  | some prdtm =>
    .ok { arrivalTime := prdtm
          departureTime := prdtm - 60000
          stopName := pred.stpnm
          stopId := pred.stpid
          route := pred.rt
          direction := pred.rtdir
          vehicleId := pred.vid
          minutesUntilArrival := max 0 (jsRoundMinutes (prdtm - now)) }

/-- `AcTransitClient.getPredictions` from the point where the upstream JSON
envelope has been fetched and zod-parsed (`env`); `now` is `Date.now()`.  The
route gate precedes the HTTP call in the source, so for a non-"NL" route the
result does not depend on `env` at all. -/
def getPredictions (_stopId route : String) (env : AcEnvelope) (now : Int) :
    Except String (List TransitPrediction) :=
  if route ≠ "NL" then .error "Only NL route is currently supported"
  else
    match env.error with
    | some (e :: _) => .error ("AC Transit API error: " ++ e.msg)
    | _ => mapThrow (convertPrediction now) (env.prd.getD [])

end AcTransitClient

/-! ## Spec-side Time Normalizer

The specification describes a DST-correct Time Normalizer ("apply UTC offset
-07:00 during DST, -08:00 otherwise"), and its design notes say the source
holds a naive and a DST-correct duplicate; only the naive variant exists under
src/.  The definitions below follow the specification's words and exist solely
to be compared against `parseAcTransitDateTime` above. -/

/-- Modelled from the spec: first Sunday (day of month, 1-based) of month `m`
of year `y`; epoch day 0 (1970-01-01) was a Thursday, so day `d` has weekday
`(d + 4) mod 7` with Sunday = 0. -/
def firstSundayOfMonth (y m : Int) : Int :=
  let w := (daysFromCivil y m 1 + 4).fmod 7
  1 + (7 - w).fmod 7

/-- Modelled from the spec: the US-Pacific DST rule — DST begins the second
Sunday of March and ends the first Sunday of November, as a half-open interval
of calendar dates taken at local midnight. -/
def isPacificDST (y m d : Int) : Bool :=
  let day := daysFromCivil y m d
  let dstStart := daysFromCivil y 3 (firstSundayOfMonth y 3 + 7)
  let dstEnd := daysFromCivil y 11 (firstSundayOfMonth y 11)
  dstStart ≤ day ∧ day < dstEnd

/-- Modelled from the spec: does the string match the fixed-width layout
"yyyyMMdd HH:mm"? -/
def matchesLayout (s : String) : Bool :=
  match s.data with
  | [y1, y2, y3, y4, mo1, mo2, d1, d2, sp, h1, h2, co, mi1, mi2] =>
    y1.isDigit && y2.isDigit && y3.isDigit && y4.isDigit &&
    mo1.isDigit && mo2.isDigit && d1.isDigit && d2.isDigit &&
    sp == ' ' &&
    h1.isDigit && h2.isDigit && co == ':' && mi1.isDigit && mi2.isDigit
  | _ => false

/-- Modelled from the spec: the DST-correct Time Normalizer, which is missing
from src/ (only the naive `parseAcTransitDateTime` is present there).  Parse
the fixed character offsets, decide DST by the US-Pacific rule, and build the
absolute instant with offset -07:00 during DST and -08:00 otherwise,
independent of the executing environment. -/
def pacificNormalizeSpec (s : String) : Option Int :=
  if matchesLayout s then
    let y := (digitsToNat (s.data.take 4) : Int)
    let mo := (digitsToNat ((s.data.drop 4).take 2) : Int)
    let d := (digitsToNat ((s.data.drop 6).take 2) : Int)
    let h := (digitsToNat ((s.data.drop 9).take 2) : Int)
    let mi := (digitsToNat ((s.data.drop 12).take 2) : Int)
    let offsetHours : Int := if isPacificDST y mo d then 7 else 8
    some (daysFromCivil y mo d * 86400000 + h * 3600000 + mi * 60000
          + offsetHours * 3600000)
  else none

/-! ## BART client (the rail adapter with direction and line filtering) -/

namespace BartClient

/-- One upstream estimate; only the four fields the client reads are carried
(the upstream `platform`, `length`, `hexcolor`, `bikeflag`, `delay` and
`dynamicflag` fields are never used by `getPredictions`). -/
structure BartEstimate where
  minutes : String
  direction : String
  color : String
  cancelflag : String
  deriving Repr, DecidableEq

/-- One `etd` group: a destination with its estimates. -/
structure BartEtd where
  destination : String
  estimate : List BartEstimate
  deriving Repr, DecidableEq

/-- The `root.station[0]` object of the departures response. -/
structure BartStation where
  name : String
  abbr : String
  etd : List BartEtd
  deriving Repr, DecidableEq

/-- The three-step filter of `getPredictions`, in source order: keep an
estimate when the first character of its lower-cased direction equals the
requested token, its lower-cased color matches one of the requested lines
case-insensitively, and it is not flagged cancelled. -/
def includeEstimate (direction : String) (lines : List String) (est : BartEstimate) : Bool :=
  (firstLowerChar est.direction == direction) &&
  (lines.any fun line => jsToLower line == jsToLower est.color) &&
  (est.cancelflag != "1")

/-- The minutes value of an estimate: `"Leaving"` is 0, anything else goes
through `parseInt` (`none` is `NaN`). -/
def minutesOf (est : BartEstimate) : Option Int :=
  if est.minutes == "Leaving" then some 0 else jsParseInt est.minutes

/-- The prediction object pushed for a passing estimate with parsed minutes
`m`: arrival is `now + m` minutes, departure equals arrival, the route is the
upper-cased line color, the direction is the destination string. -/
def mkPrediction (st : BartStation) (now : Int) (destination : String)
    (est : BartEstimate) (m : Int) : TransitPrediction :=
  { arrivalTime := now + m * 60000
    departureTime := now + m * 60000
    stopName := st.name
    stopId := st.abbr
    route := jsToUpper (jsToLower est.color)
    direction := destination
    vehicleId := ""
    minutesUntilArrival := m }

/-- The inner estimate loop for one `etd` group: filtered estimates are
converted in order; an unparseable minutes value on a passing estimate makes
`toISOString()` throw on the Invalid Date. -/
def scanEstimates (direction : String) (lines : List String) (st : BartStation)
    (now : Int) (destination : String) :
    List BartEstimate → Except String (List TransitPrediction)
  | [] => .ok []
  | est :: rest =>
    if includeEstimate direction lines est then
      match minutesOf est with
      | none => .error "RangeError: Invalid time value"
      | some m =>
        match scanEstimates direction lines st now destination rest with
        | .error e => .error e
        | .ok ps => .ok (mkPrediction st now destination est m :: ps)
    else scanEstimates direction lines st now destination rest

/-- The outer loop over `etd` groups, concatenating in traversal order. -/
def collectPredictions (direction : String) (lines : List String) (st : BartStation)
    (now : Int) : List BartEtd → Except String (List TransitPrediction)
  | [] => .ok []
  | etd :: rest =>
    match scanEstimates direction lines st now etd.destination etd.estimate with
    | .error e => .error e
    | .ok ps =>
      match collectPredictions direction lines st now rest with
      | .error e => .error e
      | .ok qs => .ok (ps ++ qs)

/-- The ascending-arrival-time order used by the final
`predictions.sort((a, b) => dateMs(a) - dateMs(b))`. -/
def arrivalLE (a b : TransitPrediction) : Prop :=
  a.arrivalTime ≤ b.arrivalTime

instance : DecidableRel arrivalLE := fun a b => Int.decLe a.arrivalTime b.arrivalTime

instance : IsTotal TransitPrediction arrivalLE :=
  ⟨fun a b => Int.le_total a.arrivalTime b.arrivalTime⟩

instance : IsTrans TransitPrediction arrivalLE :=
  ⟨fun _ _ _ h1 h2 => le_trans h1 h2⟩

/-- `BartClient.getPredictions` from the point where the upstream departures
payload has been fetched and found non-empty (`st` is `root.station[0]`);
`now` is the clock reading (the source re-reads `new Date()` per estimate;
the sub-millisecond spread between those reads within one call is modelled as
a single instant).  The collected predictions are sorted ascending by arrival
time and returned — there is no result cap in this variant. -/
def getPredictions (lines : List String) (direction : String) (st : BartStation)
    (now : Int) : Except String (List TransitPrediction) :=
  match collectPredictions direction lines st now st.etd with
  | .error e => .error e
  | .ok ps => .ok (List.insertionSort arrivalLE ps)

/-- All (destination, estimate) pairs of a station in traversal order, used to
state which estimates are included. -/
def allEstimates (st : BartStation) : List (String × BartEstimate) :=
  st.etd.flatMap fun etd => etd.estimate.map fun est => (etd.destination, est)

/-- Totalised conversion used for stating the filter property: the minutes of
an unparseable estimate default to 0 (on a successful run no such estimate
passes the filter, so the default is never exercised). -/
def mkPredictionD (st : BartStation) (now : Int) (pe : String × BartEstimate) :
    TransitPrediction :=
  mkPrediction st now pe.1 pe.2 ((minutesOf pe.2).getD 0)

end BartClient

/-! ## Prediction endpoint error mapping (src/endpoints/transitPredictions.ts) -/

/-- The JSON responses of the prediction endpoint: a 200 success carrying
predictions, or an error status with the `error` field of the
`{ success: false, error }` body. -/
inductive EndpointResult where
  | ok (predictions : List TransitPrediction)
  | err (status : Nat) (message : String)
  deriving Repr, DecidableEq

namespace TransitPredictions

/-- The catch block of `TransitPredictions.handle`: an error whose message
contains "Only NL route" becomes a 400 carrying that message verbatim; every
other error becomes a 500 with a generic message. -/
def mapCaughtError (msg : String) : Nat × String :=
  if jsIncludes msg "Only NL route" then (400, msg)
  else (500, "Failed to fetch transit predictions")

/-- The `agency = "actransit"` path of `TransitPredictions.handle`: call the
bus client, post-filter by direction (case-insensitive substring match on each
prediction's direction) when a direction was supplied, and map any thrown
error through the catch block. -/
def handleAcTransit (stop route : String) (direction : Option String)
    (env : AcTransitClient.AcEnvelope) (now : Int) : EndpointResult :=
  match AcTransitClient.getPredictions stop route env now with
  | .ok preds =>
    .ok (match direction with
         | some d => preds.filter fun p => jsIncludes (jsToLower p.direction) (jsToLower d)
         | none => preds)
  | .error msg => .err (mapCaughtError msg).1 (mapCaughtError msg).2

end TransitPredictions

/-! ## Stop consolidation (src/endpoints/stops.ts, fetch path) -/

namespace Stops

/-- One stop of a route-direction group of the AC Transit route/stops payload.
The numeric `StopId` is immediately rendered by `.toString()` in the source,
so it is modelled as the rendered string; `Latitude`/`Longitude` are only
copied, so they are modelled as integers; the optional `Scheduling`/`Order`
fields are unused here. -/
structure RawStop where
  StopId : String
  Name : String
  Latitude : Int
  Longitude : Int
  deriving Repr, DecidableEq

/-- One element of the route/stops payload: a direction with its stops. -/
structure RouteDirectionStops where
  Direction : String
  Destination : String
  Stops : List RawStop
  deriving Repr, DecidableEq

/-- The object pushed into the name group for each (direction, stop) pair. -/
structure StopEntry where
  stopId : String
  stopCode : String
  stopName : String
  lat : Int
  lon : Int
  direction : String
  deriving Repr, DecidableEq

/-- One consolidated output stop. -/
structure ConsolidatedStop where
  stopId : String
  stopCode : String
  stopName : String
  lat : Int
  lon : Int
  deriving Repr, DecidableEq

/-- The (direction, stop) traversal of the nested `for` loops, flattened in
order. -/
def flattenEntries (routeStopsData : List RouteDirectionStops) : List StopEntry :=
  routeStopsData.flatMap fun rd => rd.Stops.map fun stop =>
    { stopId := stop.StopId
      stopCode := stop.StopId
      stopName := stop.Name
      lat := stop.Latitude
      lon := stop.Longitude
      direction := rd.Direction }

/-- One step of filling the insertion-ordered `stopsByName` map: append the
entry to its name group, creating the group at the end on first sight. -/
def insertEntry (acc : List (String × List StopEntry)) (e : StopEntry) :
    List (String × List StopEntry) :=
  if acc.any (fun p => p.1 == e.stopName) then
    acc.map fun p => if p.1 == e.stopName then (p.1, p.2 ++ [e]) else p
  else acc ++ [(e.stopName, [e])]

/-- The `stopsByName` map after the traversal, as its insertion-ordered entry
list. -/
def stopsByName (routeStopsData : List RouteDirectionStops) :
    List (String × List StopEntry) :=
  (flattenEntries routeStopsData).foldl insertEntry []

/-- The per-group consolidation: a singleton group passes through; a larger
group gets the comma-joined ids of all its members and the first member's
coordinates. -/
def consolidateGroup (name : String) (stopList : List StopEntry) : ConsolidatedStop :=
  match stopList with
  | [e] =>
    { stopId := e.stopId, stopCode := e.stopCode, stopName := e.stopName
      lat := e.lat, lon := e.lon }
  | _ =>
    { stopId := ",".intercalate (stopList.map (·.stopId))
      stopCode := ",".intercalate (stopList.map (·.stopCode))
      stopName := name
      lat := (stopList.head?.map (·.lat)).getD 0
      lon := (stopList.head?.map (·.lon)).getD 0 }

/-- The consolidated list before the final sort (the `.map(...)` over
`stopsByName.entries()`). -/
def groupedStops (routeStopsData : List RouteDirectionStops) : List ConsolidatedStop :=
  (stopsByName routeStopsData).map fun p => consolidateGroup p.1 p.2

/-- The name order of the final `.sort((a, b) => a.stopName.localeCompare(b.stopName))`,
modelled by code-point string order (it agrees with the locale order on the
ASCII names at hand). -/
def stopNameLE (a b : ConsolidatedStop) : Prop :=
  a.stopName ≤ b.stopName

instance : DecidableRel stopNameLE := fun a b => String.decidableLE a.stopName b.stopName

/-- The full consolidation result of the fetch path of `Stops.handle`. -/
def handleStops (routeStopsData : List RouteDirectionStops) : List ConsolidatedStop :=
  List.insertionSort stopNameLE (groupedStops routeStopsData)

/-- The distinct values of a list in first-seen order. -/
def firstSeenAux (seen : List String) : List String → List String
  | [] => []
  | x :: xs =>
    if seen.contains x then firstSeenAux seen xs
    else x :: firstSeenAux (x :: seen) xs

/-- The distinct values of a list in first-seen order. -/
def firstSeen (xs : List String) : List String :=
  firstSeenAux [] xs

/-- Modelled from the claim's words: the consolidated id prescribed for a name
group — the comma-joined list of the group's underlying ids, deduplicated by
id while preserving first-seen order. -/
def claimConsolidatedId (ids : List String) : String :=
  ",".intercalate (firstSeen ids)

/-- The grouping as a closed form: one pair per distinct name in first-seen
order, holding all occurrences of that name in traversal order. -/
def canonGroups (es : List StopEntry) : List (String × List StopEntry) :=
  (firstSeen (es.map (·.stopName))).map fun n => (n, es.filter fun e => e.stopName == n)

/-- The characterization the code actually satisfies: one output per distinct
name in first-seen order, whose id is the comma-join of all occurrences of
that name (duplicates included) and whose coordinates come from the first
occurrence. -/
def consolidateByName (routeStopsData : List RouteDirectionStops) : List ConsolidatedStop :=
  (canonGroups (flattenEntries routeStopsData)).map fun p => consolidateGroup p.1 p.2

end Stops

/-! ## Direction resolution (src/endpoints/stopDirections.ts, actransit path) -/

namespace StopDirections

/-- One entry of the returned `directions` array. -/
structure DirectionEntry where
  direction : String
  destination : String
  stopId : String
  deriving Repr, DecidableEq

/-- `stop.split(',').map(id => id.trim())`. -/
def candidateIds (stop : String) : List String :=
  (splitCh ',' stop.data).map fun cs => jsTrim cs.asString

/-- Has a `DirectionEntry` already been recorded for this direction value? -/
def hasDirection (acc : List DirectionEntry) (d : String) : Bool :=
  acc.any fun e => e.direction == d

/-- The inner candidate loop for one route direction: record the first
candidate id contained in the direction's stop list, unless an entry for this
direction value already exists. -/
def scanCandidates (d destination : String) (stops : List String) :
    List String → List DirectionEntry → List DirectionEntry
  | [], acc => acc
  | c :: cs, acc =>
    if stops.contains c && !(hasDirection acc d) then
      scanCandidates d destination stops cs (acc ++ [⟨d, destination, c⟩])
    else scanCandidates d destination stops cs acc

/-- The outer loop over the route/stops payload, accumulating the
insertion-ordered `directionsMap`. -/
def resolveLoop (cands : List String) :
    List Stops.RouteDirectionStops → List DirectionEntry → List DirectionEntry
  | [], acc => acc
  | rd :: rest, acc =>
    resolveLoop cands rest
      (scanCandidates rd.Direction rd.Destination (rd.Stops.map (·.StopId)) cands acc)

/-- The direction-resolution core of `StopDirections.handle`: the
`directionsForStop` array computed for a (possibly comma-joined) stop id. -/
def resolveDirections (stop : String) (routeStopsData : List Stops.RouteDirectionStops) :
    List DirectionEntry :=
  resolveLoop (candidateIds stop) routeStopsData []

end StopDirections

/-! ## Theorems -/

/-- Filtering a list mapped into destination pairs is filtering on the
estimate component. -/
theorem map_pair_filter {β : Type} (dest : String)
    (inc : BartClient.BartEstimate → Bool) (f : String × BartClient.BartEstimate → β)
    (ests : List BartClient.BartEstimate) :
    ((ests.map fun est => (dest, est)).filter fun pe => inc pe.2).map f =
      (ests.filter inc).map fun est => f (dest, est) := by
  induction ests with
  | nil => rfl
  | cons est rest ih =>
    by_cases h : inc est = true <;> simp [h, ih]

/-- A successful inner estimate scan returns exactly the filtered estimates,
converted in order. -/
theorem scanEstimates_ok_eq (direction : String) (lines : List String)
    (st : BartClient.BartStation) (now : Int) (destination : String) :
    ∀ ests ps, BartClient.scanEstimates direction lines st now destination ests = .ok ps →
      ps = (ests.filter (BartClient.includeEstimate direction lines)).map
        fun est => BartClient.mkPredictionD st now (destination, est)
  | [], ps, h => by
    simpa [BartClient.scanEstimates] using h.symm
  | est :: rest, ps, h => by
    by_cases hinc : BartClient.includeEstimate direction lines est = true
    · rw [BartClient.scanEstimates, if_pos hinc] at h
      cases hm : BartClient.minutesOf est with
      | none => rw [hm] at h; exact absurd h (by simp)
      | some m =>
        rw [hm] at h
        cases hrec : BartClient.scanEstimates direction lines st now destination rest with
        | error e => rw [hrec] at h; exact absurd h (by simp)
        | ok qs =>
          rw [hrec] at h
          have hq := scanEstimates_ok_eq direction lines st now destination rest qs hrec
          have hps : ps = BartClient.mkPrediction st now destination est m :: qs := by
            simpa using h.symm
          subst hps hq
          simp [hinc, BartClient.mkPredictionD, hm]
    · rw [BartClient.scanEstimates, if_neg hinc] at h
      have hq := scanEstimates_ok_eq direction lines st now destination rest ps h
      rw [hq, List.filter_cons_of_neg (by simpa using hinc)]

/-- A successful collection returns exactly the filtered (destination,
estimate) traversal, converted in order. -/
theorem collectPredictions_ok_eq (direction : String) (lines : List String)
    (st : BartClient.BartStation) (now : Int) :
    ∀ etds ps, BartClient.collectPredictions direction lines st now etds = .ok ps →
      ps = ((etds.flatMap fun etd => etd.estimate.map fun est => (etd.destination, est)).filter
        fun pe => BartClient.includeEstimate direction lines pe.2).map
          (BartClient.mkPredictionD st now)
  | [], ps, h => by
    simpa [BartClient.collectPredictions] using h.symm
  | etd :: rest, ps, h => by
    rw [BartClient.collectPredictions] at h
    cases hs : BartClient.scanEstimates direction lines st now etd.destination etd.estimate with
    | error e => rw [hs] at h; exact absurd h (by simp)
    | ok qs =>
      rw [hs] at h
      cases hc : BartClient.collectPredictions direction lines st now rest with
      | error e => rw [hc] at h; exact absurd h (by simp)
      | ok rs =>
        rw [hc] at h
        have hps : ps = qs ++ rs := by simpa using h.symm
        have h1 := scanEstimates_ok_eq direction lines st now etd.destination etd.estimate qs hs
        have h2 := collectPredictions_ok_eq direction lines st now rest rs hc
        subst hps h1 h2
        rw [List.flatMap_cons, List.filter_append, List.map_append, map_pair_filter]

/-- Every prediction built by the rail conversion has coincident departure
and arrival, and arrival `now + minutes * 60000`. -/
theorem mkPredictionD_shape (st : BartClient.BartStation) (now : Int)
    (pe : String × BartClient.BartEstimate) :
    (BartClient.mkPredictionD st now pe).departureTime =
        (BartClient.mkPredictionD st now pe).arrivalTime ∧
      (BartClient.mkPredictionD st now pe).arrivalTime =
        now + (BartClient.mkPredictionD st now pe).minutesUntilArrival * 60000 :=
  ⟨rfl, rfl⟩

/-- Every element of a successful exception-propagating map is the successful
image of an element of the input. -/
theorem mapThrow_ok_mem {α β : Type} (f : α → Except String β) :
    ∀ l ps, AcTransitClient.mapThrow f l = .ok ps →
      ∀ p ∈ ps, ∃ x ∈ l, f x = .ok p
  | [], ps, h => by
    have : ps = [] := by simpa [AcTransitClient.mapThrow] using h.symm
    simp [this]
  | x :: xs, ps, h => by
    rw [AcTransitClient.mapThrow] at h
    cases hf : f x with
    | error e => rw [hf] at h; exact absurd h (by simp)
    | ok y =>
      rw [hf] at h
      cases hm : AcTransitClient.mapThrow f xs with
      | error e => rw [hm] at h; exact absurd h (by simp)
      | ok ys =>
        rw [hm] at h
        have hps : ps = y :: ys := by simpa using h.symm
        subst hps
        intro p hp
        rcases List.mem_cons.mp hp with hpy | hpys
        · exact ⟨x, List.mem_cons_self x xs, hpy ▸ hf⟩
        · rcases mapThrow_ok_mem f xs ys hm p hpys with ⟨z, hz, hfz⟩
          exact ⟨z, List.mem_cons_of_mem x hz, hfz⟩

/-- C4: the rail adapter includes an upstream estimate in its (pre-sort)
output exactly when the first character of the lower-cased direction equals
the requested token, the line color matches one of the requested lines
case-insensitively, and the estimate is not flagged cancelled; in particular
`cancelflag = "1"` always fails the filter, whatever the color and
direction. -/
theorem c4_rail_filter_iff :
    (∀ (direction : String) (lines : List String) (st : BartClient.BartStation)
       (now : Int) (ps : List TransitPrediction),
       BartClient.collectPredictions direction lines st now st.etd = .ok ps →
         ps = ((BartClient.allEstimates st).filter
           fun pe => BartClient.includeEstimate direction lines pe.2).map
             (BartClient.mkPredictionD st now)) ∧
    (∀ (direction : String) (lines : List String) (est : BartClient.BartEstimate),
       est.cancelflag = "1" → BartClient.includeEstimate direction lines est = false) ∧
    (∀ (direction : String) (lines : List String) (st : BartClient.BartStation)
       (now : Int) (ps : List TransitPrediction),
       BartClient.getPredictions lines direction st now = .ok ps →
         ∀ p, p ∈ ps ↔ p ∈ ((BartClient.allEstimates st).filter
           fun pe => BartClient.includeEstimate direction lines pe.2).map
             (BartClient.mkPredictionD st now)) := by
  refine ⟨?_, ?_, ?_⟩
  · intro direction lines st now ps h
    exact collectPredictions_ok_eq direction lines st now st.etd ps h
  · intro direction lines est h
    simp [BartClient.includeEstimate, h]
  · intro direction lines st now ps h p
    rw [BartClient.getPredictions] at h
    cases hc : BartClient.collectPredictions direction lines st now st.etd with
    | error e => rw [hc] at h; exact absurd h (by simp)
    | ok qs =>
      rw [hc] at h
      have hps : ps = List.insertionSort BartClient.arrivalLE qs := by simpa using h.symm
      rw [hps, List.mem_insertionSort,
          collectPredictions_ok_eq direction lines st now st.etd qs hc,
          BartClient.allEstimates]

/-- C4 witness: at a concrete station, the matching estimate is converted and
the cancelled one (matching color and direction) is excluded. -/
theorem c4_rail_filter_iff_witness :
    ([{ arrivalTime := 300000, departureTime := 300000,
        stopName := "Embarcadero", stopId := "EMBR", route := "RED",
        direction := "SF Airport", vehicleId := "",
        minutesUntilArrival := 5 }] : List TransitPrediction) =
      ((BartClient.allEstimates
          { name := "Embarcadero", abbr := "EMBR",
            etd := [{ destination := "SF Airport",
                      estimate := [{ minutes := "5", direction := "North",
                                     color := "RED", cancelflag := "0" },
                                   { minutes := "3", direction := "North",
                                     color := "RED", cancelflag := "1" }] }] }).filter
        fun pe => BartClient.includeEstimate "n" ["red"] pe.2).map
          (BartClient.mkPredictionD
            { name := "Embarcadero", abbr := "EMBR",
              etd := [{ destination := "SF Airport",
                        estimate := [{ minutes := "5", direction := "North",
                                       color := "RED", cancelflag := "0" },
                                     { minutes := "3", direction := "North",
                                       color := "RED", cancelflag := "1" }] }] } 0) ∧
    BartClient.includeEstimate "n" ["red"]
      { minutes := "3", direction := "North", color := "RED", cancelflag := "1" } = false :=
  ⟨c4_rail_filter_iff.1 "n" ["red"] _ 0 _ rfl,
   c4_rail_filter_iff.2.1 "n" ["red"] _ rfl⟩

/-- C5 counterexample: a station answering four matching estimates yields
four predictions — the claimed cap at 3 results is absent from this rail
adapter variant (it sorts but never truncates). -/
theorem c5_counterexample_no_result_cap :
    (BartClient.getPredictions ["red"] "n"
        { name := "Embarcadero", abbr := "EMBR",
          etd := [{ destination := "SF Airport",
                    estimate := [{ minutes := "9", direction := "North",
                                   color := "RED", cancelflag := "0" },
                                 { minutes := "7", direction := "North",
                                   color := "RED", cancelflag := "0" },
                                 { minutes := "5", direction := "North",
                                   color := "RED", cancelflag := "0" },
                                 { minutes := "3", direction := "North",
                                   color := "RED", cancelflag := "0" }] }] }
        0).toOption.map List.length = some 4 ∧
    ¬ (4 ≤ 3) :=
  ⟨rfl, by decide⟩

/-- C5 amended: the rail adapter returns its prediction sequence sorted
ascending by `minutesUntilArrival` (it sorts by arrival instant, and every
prediction's arrival is `now` plus its minutes), but without any cap — all
filtered estimates are returned. -/
theorem c5_rail_output_sorted (lines : List String) (direction : String)
    (st : BartClient.BartStation) (now : Int) (ps : List TransitPrediction)
    (h : BartClient.getPredictions lines direction st now = .ok ps) :
    ps.Pairwise fun a b => a.minutesUntilArrival ≤ b.minutesUntilArrival := by
  rw [BartClient.getPredictions] at h
  cases hc : BartClient.collectPredictions direction lines st now st.etd with
  | error e => rw [hc] at h; exact absurd h (by simp)
  | ok qs =>
    rw [hc] at h
    have hps : ps = List.insertionSort BartClient.arrivalLE qs := by simpa using h.symm
    have hshape : ∀ p ∈ ps, p.arrivalTime = now + p.minutesUntilArrival * 60000 := by
      intro p hp
      rw [hps, List.mem_insertionSort] at hp
      have := collectPredictions_ok_eq direction lines st now st.etd qs hc
      rw [this] at hp
      rcases List.mem_map.mp hp with ⟨pe, _, hpe⟩
      rw [← hpe]
      exact (mkPredictionD_shape st now pe).2
    have hsorted : ps.Pairwise BartClient.arrivalLE := by
      rw [hps]
      exact List.sorted_insertionSort BartClient.arrivalLE qs
    refine hsorted.imp_of_mem ?_
    intro a b ha hb hab
    have h1 := hshape a ha
    have h2 := hshape b hb
    have : now + a.minutesUntilArrival * 60000 ≤ now + b.minutesUntilArrival * 60000 := by
      rw [← h1, ← h2]; exact hab
    have h3 : a.minutesUntilArrival * 60000 ≤ b.minutesUntilArrival * 60000 := by omega
    exact le_of_mul_le_mul_right h3 (by norm_num)

/-- C5 amended, witness: the four-estimate station's output is sorted by
minutes ascending. -/
theorem c5_rail_output_sorted_witness :
    ([{ arrivalTime := 180000, departureTime := 180000,
        stopName := "Embarcadero", stopId := "EMBR", route := "RED",
        direction := "SF Airport", vehicleId := "", minutesUntilArrival := 3 },
      { arrivalTime := 300000, departureTime := 300000,
        stopName := "Embarcadero", stopId := "EMBR", route := "RED",
        direction := "SF Airport", vehicleId := "", minutesUntilArrival := 5 }] :
      List TransitPrediction).Pairwise
        (fun a b => a.minutesUntilArrival ≤ b.minutesUntilArrival) :=
  c5_rail_output_sorted ["red"] "n"
    { name := "Embarcadero", abbr := "EMBR",
      etd := [{ destination := "SF Airport",
                estimate := [{ minutes := "5", direction := "North",
                               color := "RED", cancelflag := "0" },
                             { minutes := "3", direction := "North",
                               color := "RED", cancelflag := "0" }] }] }
    0 _ rfl

/-- C7 counterexample: an upstream estimate reporting "-5" minutes passes the
filter and is emitted with `minutesUntilArrival = -5 < 0` — the rail adapter
never clamps at zero. -/
theorem c7_counterexample_negative_minutes :
    BartClient.getPredictions ["red"] "n"
      { name := "Embarcadero", abbr := "EMBR",
        etd := [{ destination := "SF Airport",
                  estimate := [{ minutes := "-5", direction := "North",
                                 color := "RED", cancelflag := "0" }] }] }
      1000000 =
      .ok [{ arrivalTime := 700000, departureTime := 700000,
             stopName := "Embarcadero", stopId := "EMBR", route := "RED",
             direction := "SF Airport", vehicleId := "",
             minutesUntilArrival := -5 }] ∧
    ((-5 : Int) < 0) :=
  ⟨rfl, by decide⟩

/-- C7 amended: every bus prediction has non-negative minutes (the bus
adapter clamps with `Math.max(0, ...)`) and departure one minute before
arrival, hence `departureTime ≤ arrivalTime`; every rail prediction has
`departureTime = arrivalTime`, and its minutes are non-negative provided the
upstream minutes fields parse non-negative ("Leaving" or a non-negative
count) — an upstream negative count is passed through unclamped. -/
theorem c7_prediction_invariants :
    (∀ (stop route : String) (env : AcTransitClient.AcEnvelope) (now : Int)
       (ps : List TransitPrediction),
       AcTransitClient.getPredictions stop route env now = .ok ps →
         ∀ p ∈ ps, 0 ≤ p.minutesUntilArrival ∧ p.departureTime ≤ p.arrivalTime) ∧
    (∀ (lines : List String) (direction : String) (st : BartClient.BartStation)
       (now : Int) (ps : List TransitPrediction),
       BartClient.getPredictions lines direction st now = .ok ps →
         ∀ p ∈ ps, p.departureTime = p.arrivalTime ∧
           ((∀ etd ∈ st.etd, ∀ est ∈ etd.estimate, ∀ m : Int,
               BartClient.minutesOf est = some m → 0 ≤ m) →
             0 ≤ p.minutesUntilArrival)) := by
  constructor
  · intro stop route env now ps h p hp
    rw [AcTransitClient.getPredictions] at h
    by_cases hr : route ≠ "NL"
    · rw [if_pos hr] at h; exact absurd h (by simp)
    · rw [if_neg hr] at h
      have hmap : ∃ l, AcTransitClient.mapThrow (AcTransitClient.convertPrediction now) l
          = .ok ps := by
        rcases henv : env.error with _ | es
        · rw [henv] at h; exact ⟨env.prd.getD [], h⟩
        · rcases es with _ | ⟨e, es'⟩
          · rw [henv] at h; exact ⟨env.prd.getD [], h⟩
          · rw [henv] at h; exact absurd h (by simp)
      rcases hmap with ⟨l, hl⟩
      rcases mapThrow_ok_mem _ l ps hl p hp with ⟨x, _, hfx⟩
      rw [AcTransitClient.convertPrediction] at hfx
      cases hparse : AcTransitClient.parseAcTransitDateTime 0 x.prdtm with
      | none => rw [hparse] at hfx; exact absurd hfx (by simp)
      | some t =>
        rw [hparse] at hfx
        have hpx : p = { arrivalTime := t, departureTime := t - 60000,
                         stopName := x.stpnm, stopId := x.stpid, route := x.rt,
                         direction := x.rtdir, vehicleId := x.vid,
                         minutesUntilArrival := max 0 (jsRoundMinutes (t - now)) } := by
          simpa using hfx.symm
        subst hpx
        exact ⟨le_max_left 0 _, by simp⟩
  · intro lines direction st now ps h p hp
    rw [BartClient.getPredictions] at h
    cases hc : BartClient.collectPredictions direction lines st now st.etd with
    | error e => rw [hc] at h; exact absurd h (by simp)
    | ok qs =>
      rw [hc] at h
      have hps : ps = List.insertionSort BartClient.arrivalLE qs := by simpa using h.symm
      rw [hps, List.mem_insertionSort] at hp
      rw [collectPredictions_ok_eq direction lines st now st.etd qs hc] at hp
      rcases List.mem_map.mp hp with ⟨pe, hpe_mem, hpe⟩
      have hdep : p.departureTime = p.arrivalTime := by
        rw [← hpe]; exact (mkPredictionD_shape st now pe).1
      refine ⟨hdep, ?_⟩
      intro hnn
      rcases List.mem_filter.mp hpe_mem with ⟨hpe_all, _⟩
      rcases List.mem_flatMap.mp hpe_all with ⟨etd, hetd, hpe_in⟩
      rcases List.mem_map.mp hpe_in with ⟨est, hest, hpair⟩
      have hmin : p.minutesUntilArrival = (BartClient.minutesOf pe.2).getD 0 := by
        rw [← hpe]; rfl
      rw [hmin]
      cases hm : BartClient.minutesOf pe.2 with
      | none => simp
      | some m =>
        have : pe.2 = est := by rw [← hpair]
        rw [this] at hm
        simpa using hnn etd hetd est hest m hm

/-- C7 amended, witness: a bus prediction obeys the clamp and the one-minute
departure offset, and a rail prediction from non-negative upstream minutes
has equal departure and arrival and non-negative minutes. -/
theorem c7_prediction_invariants_witness :
    (0 ≤ ({ arrivalTime := 1718476320000, departureTime := 1718476260000,
            stopName := "Uptown Transit Center", stopId := "55558", route := "NL",
            direction := "To San Francisco", vehicleId := "1407",
            minutesUntilArrival := 5 } : TransitPrediction).minutesUntilArrival ∧
      ({ arrivalTime := 1718476320000, departureTime := 1718476260000,
         stopName := "Uptown Transit Center", stopId := "55558", route := "NL",
         direction := "To San Francisco", vehicleId := "1407",
         minutesUntilArrival := 5 } : TransitPrediction).departureTime ≤
        ({ arrivalTime := 1718476320000, departureTime := 1718476260000,
           stopName := "Uptown Transit Center", stopId := "55558", route := "NL",
           direction := "To San Francisco", vehicleId := "1407",
           minutesUntilArrival := 5 } : TransitPrediction).arrivalTime) ∧
    (({ arrivalTime := 300000, departureTime := 300000,
        stopName := "Embarcadero", stopId := "EMBR", route := "RED",
        direction := "SF Airport", vehicleId := "",
        minutesUntilArrival := 5 } : TransitPrediction).departureTime =
      ({ arrivalTime := 300000, departureTime := 300000,
         stopName := "Embarcadero", stopId := "EMBR", route := "RED",
         direction := "SF Airport", vehicleId := "",
         minutesUntilArrival := 5 } : TransitPrediction).arrivalTime ∧
      0 ≤ ({ arrivalTime := 300000, departureTime := 300000,
             stopName := "Embarcadero", stopId := "EMBR", route := "RED",
             direction := "SF Airport", vehicleId := "",
             minutesUntilArrival := 5 } : TransitPrediction).minutesUntilArrival) := by
  have hbus := c7_prediction_invariants.1 "55558" "NL"
    { prd := some [{ stpnm := "Uptown Transit Center", stpid := "55558",
                     vid := "1407", rt := "NL", rtdir := "To San Francisco",
                     prdtm := "20240615 18:32" }]
      error := none } 1718476000000
    [{ arrivalTime := 1718476320000, departureTime := 1718476260000,
       stopName := "Uptown Transit Center", stopId := "55558", route := "NL",
       direction := "To San Francisco", vehicleId := "1407",
       minutesUntilArrival := 5 }] rfl
    { arrivalTime := 1718476320000, departureTime := 1718476260000,
      stopName := "Uptown Transit Center", stopId := "55558", route := "NL",
      direction := "To San Francisco", vehicleId := "1407",
      minutesUntilArrival := 5 } (List.mem_singleton.mpr rfl)
  have hrail := c7_prediction_invariants.2 ["red"] "n"
    { name := "Embarcadero", abbr := "EMBR",
      etd := [{ destination := "SF Airport",
                estimate := [{ minutes := "5", direction := "North",
                               color := "RED", cancelflag := "0" }] }] }
    0
    [{ arrivalTime := 300000, departureTime := 300000,
       stopName := "Embarcadero", stopId := "EMBR", route := "RED",
       direction := "SF Airport", vehicleId := "",
       minutesUntilArrival := 5 }] rfl
    { arrivalTime := 300000, departureTime := 300000,
      stopName := "Embarcadero", stopId := "EMBR", route := "RED",
      direction := "SF Airport", vehicleId := "",
      minutesUntilArrival := 5 } (List.mem_singleton.mpr rfl)
  exact ⟨hbus, hrail.1, hrail.2 (by decide)⟩

/-- `List.contains` agrees with membership on strings. -/
theorem string_contains_iff (xs : List String) (x : String) :
    xs.contains x = true ↔ x ∈ xs := by
  simp [List.contains]

/-- Membership in `firstSeenAux`: present in the input and not yet seen. -/
theorem firstSeenAux_mem (x : String) :
    ∀ (xs seen : List String),
      x ∈ Stops.firstSeenAux seen xs ↔ (x ∈ xs ∧ ¬ x ∈ seen)
  | [], seen => by simp [Stops.firstSeenAux]
  | y :: ys, seen => by
    rw [Stops.firstSeenAux]
    by_cases hy : seen.contains y = true
    · rw [if_pos hy, firstSeenAux_mem x ys seen]
      have hymem : y ∈ seen := (string_contains_iff seen y).mp hy
      constructor
      · rintro ⟨h1, h2⟩
        exact ⟨List.mem_cons_of_mem y h1, h2⟩
      · rintro ⟨h1, h2⟩
        rcases List.mem_cons.mp h1 with rfl | h1a
        · exact absurd hymem h2
        · exact ⟨h1a, h2⟩
    · rw [if_neg hy, List.mem_cons, firstSeenAux_mem x ys (y :: seen)]
      have hymem : ¬ y ∈ seen := fun hm => hy ((string_contains_iff seen y).mpr hm)
      constructor
      · rintro (rfl | ⟨h1, h2⟩)
        · exact ⟨List.mem_cons_self x ys, hymem⟩
        · exact ⟨List.mem_cons_of_mem y h1, fun hs => h2 (List.mem_cons_of_mem y hs)⟩
      · rintro ⟨h1, h2⟩
        by_cases hxy : x = y
        · exact Or.inl hxy
        · rcases List.mem_cons.mp h1 with rfl | h1a
          · exact Or.inl rfl
          · exact Or.inr ⟨h1a, fun hc => (List.mem_cons.mp hc).elim hxy h2⟩

/-- Appending one element to the input of `firstSeenAux` appends it to the
output exactly when it is new. -/
theorem firstSeenAux_append (x : String) :
    ∀ (xs seen : List String),
      Stops.firstSeenAux seen (xs ++ [x]) =
        Stops.firstSeenAux seen xs ++ (if x ∈ seen ∨ x ∈ xs then [] else [x])
  | [], seen => by
    by_cases hx : x ∈ seen
    · have hc : seen.contains x = true := (string_contains_iff seen x).mpr hx
      simp [Stops.firstSeenAux, hc, hx]
    · have hc : ¬ seen.contains x = true :=
        fun hcc => hx ((string_contains_iff seen x).mp hcc)
      simp [Stops.firstSeenAux, hc, hx]
  | y :: ys, seen => by
    rw [List.cons_append, Stops.firstSeenAux, Stops.firstSeenAux]
    by_cases hy : seen.contains y = true
    · rw [if_pos hy, if_pos hy, firstSeenAux_append x ys seen]
      have hymem : y ∈ seen := (string_contains_iff seen y).mp hy
      have hiff : (x ∈ seen ∨ x ∈ ys) ↔ (x ∈ seen ∨ x ∈ y :: ys) := by
        simp only [List.mem_cons]
        constructor
        · rintro (h | h)
          · exact Or.inl h
          · exact Or.inr (Or.inr h)
        · rintro (h | rfl | h)
          · exact Or.inl h
          · exact Or.inl hymem
          · exact Or.inr h
      rw [if_congr hiff rfl rfl]
    · rw [if_neg hy, if_neg hy, firstSeenAux_append x ys (y :: seen), List.cons_append]
      have hiff : (x ∈ y :: seen ∨ x ∈ ys) ↔ (x ∈ seen ∨ x ∈ y :: ys) := by
        simp only [List.mem_cons]
        constructor
        · rintro ((rfl | h) | h)
          · exact Or.inr (Or.inl rfl)
          · exact Or.inl h
          · exact Or.inr (Or.inr h)
        · rintro (h | rfl | h)
          · exact Or.inl (Or.inr h)
          · exact Or.inl (Or.inl rfl)
          · exact Or.inr h
      rw [if_congr hiff rfl rfl]

/-- `firstSeenAux` never repeats a value. -/
theorem firstSeenAux_nodup :
    ∀ (xs seen : List String), (Stops.firstSeenAux seen xs).Nodup
  | [], _ => List.nodup_nil
  | y :: ys, seen => by
    rw [Stops.firstSeenAux]
    by_cases hy : seen.contains y = true
    · rw [if_pos hy]
      exact firstSeenAux_nodup ys seen
    · rw [if_neg hy]
      refine List.nodup_cons.mpr ⟨?_, firstSeenAux_nodup ys (y :: seen)⟩
      intro hmem
      exact ((firstSeenAux_mem y ys (y :: seen)).mp hmem).2 (List.mem_cons_self y seen)

/-- One `insertEntry` step turns the closed-form grouping of `l` into the
closed-form grouping of `l ++ [e]`. -/
theorem insertEntry_canonGroups (l : List Stops.StopEntry) (e : Stops.StopEntry) :
    Stops.insertEntry (Stops.canonGroups l) e = Stops.canonGroups (l ++ [e]) := by
  have hnames : (l ++ [e]).map (fun x => x.stopName) =
      l.map (fun x => x.stopName) ++ [e.stopName] := by simp
  by_cases hmem : e.stopName ∈ l.map (fun x => x.stopName)
  · have hfs : e.stopName ∈ Stops.firstSeen (l.map (fun x => x.stopName)) := by
      rw [Stops.firstSeen]
      exact (firstSeenAux_mem _ _ _).mpr ⟨hmem, by simp⟩
    have hany : (Stops.canonGroups l).any (fun p => p.1 == e.stopName) = true :=
      List.any_eq_true.mpr ⟨(e.stopName, l.filter fun x => x.stopName == e.stopName),
        List.mem_map.mpr ⟨e.stopName, hfs, rfl⟩, by simp⟩
    have hfse : Stops.firstSeen ((l ++ [e]).map (fun x => x.stopName)) =
        Stops.firstSeen (l.map (fun x => x.stopName)) := by
      rw [hnames, Stops.firstSeen, Stops.firstSeen, firstSeenAux_append]
      rw [if_pos (Or.inr hmem), List.append_nil]
    rw [Stops.insertEntry, hany, if_pos rfl, Stops.canonGroups, Stops.canonGroups,
        hfse, List.map_map]
    refine List.map_congr_left ?_
    intro n hn
    simp only [Function.comp]
    by_cases hne : n = e.stopName
    · subst hne
      rw [if_pos (by simp), List.filter_append]
      simp
    · rw [if_neg (by simp [hne]), List.filter_append]
      have hbf : (e.stopName == n) = false := beq_eq_false_iff_ne.mpr (Ne.symm hne)
      simp [hbf]
  · have hnot : ∀ p ∈ Stops.canonGroups l, ¬ (p.1 == e.stopName) = true := by
      intro p hp
      rcases List.mem_map.mp hp with ⟨n, hn, rfl⟩
      have hn2 : n ∈ l.map (fun x => x.stopName) :=
        ((firstSeenAux_mem n _ _).mp (by rwa [Stops.firstSeen] at hn)).1
      simp only [beq_iff_eq]
      rintro rfl
      exact hmem hn2
    have hany : (Stops.canonGroups l).any (fun p => p.1 == e.stopName) = false :=
      List.any_eq_false.mpr hnot
    have hfse : Stops.firstSeen ((l ++ [e]).map (fun x => x.stopName)) =
        Stops.firstSeen (l.map (fun x => x.stopName)) ++ [e.stopName] := by
      rw [hnames, Stops.firstSeen, Stops.firstSeen, firstSeenAux_append]
      rw [if_neg (by simpa using hmem)]
    rw [Stops.insertEntry, hany, if_neg Bool.false_ne_true, Stops.canonGroups,
        Stops.canonGroups, hfse, List.map_append]
    congr 1
    · refine List.map_congr_left ?_
      intro n hn
      have hn2 : n ∈ l.map (fun x => x.stopName) :=
        ((firstSeenAux_mem n _ _).mp (by rwa [Stops.firstSeen] at hn)).1
      have hne : e.stopName ≠ n := by
        rintro rfl
        exact hmem hn2
      have hbf : (e.stopName == n) = false := beq_eq_false_iff_ne.mpr hne
      rw [List.filter_append]
      simp [hbf]
    · have hfl : l.filter (fun x => x.stopName == e.stopName) = [] := by
        rw [List.filter_eq_nil_iff]
        intro a ha
        simp only [beq_iff_eq]
        intro h
        exact hmem (List.mem_map.mpr ⟨a, ha, h⟩)
      simp [List.filter_append, hfl]

/-- Folding `insertEntry` over new entries extends the closed-form
grouping. -/
theorem foldl_insertEntry_canonGroups :
    ∀ (es l : List Stops.StopEntry),
      es.foldl Stops.insertEntry (Stops.canonGroups l) = Stops.canonGroups (l ++ es)
  | [], l => by simp
  | e :: es, l => by
    rw [List.foldl_cons, insertEntry_canonGroups,
        foldl_insertEntry_canonGroups es (l ++ [e])]
    simp

/-- The insertion-ordered `stopsByName` map equals its closed form. -/
theorem stopsByName_eq_canonGroups (routeStopsData : List Stops.RouteDirectionStops) :
    Stops.stopsByName routeStopsData =
      Stops.canonGroups (Stops.flattenEntries routeStopsData) := by
  rw [Stops.stopsByName]
  have h := foldl_insertEntry_canonGroups (Stops.flattenEntries routeStopsData) []
  simpa using h

/-- The consolidated record of a uniformly-named group carries that name. -/
theorem consolidateGroup_stopName (n : String) (grp : List Stops.StopEntry)
    (h : ∀ e ∈ grp, e.stopName = n) :
    (Stops.consolidateGroup n grp).stopName = n := by
  cases grp with
  | nil => rfl
  | cons a tl =>
    cases tl with
    | nil => exact h a (by simp)
    | cons b tl2 => rfl

/-- C2 counterexample: the same underlying id 51234 appearing under the name
"103rd Avenue" in both directions is comma-joined without deduplication —
the consolidated id is "51234,51234", not the "51234" the claim's dedup rule
prescribes. -/
theorem c2_counterexample_duplicate_id_not_deduplicated :
    (Stops.groupedStops
        [{ Direction := "To A", Destination := "A",
           Stops := [{ StopId := "51234", Name := "103rd Avenue",
                       Latitude := 1, Longitude := 2 }] },
         { Direction := "To B", Destination := "B",
           Stops := [{ StopId := "51234", Name := "103rd Avenue",
                       Latitude := 1, Longitude := 2 }] }]).map
      (fun cs => cs.stopId) = ["51234,51234"] ∧
    Stops.claimConsolidatedId ["51234", "51234"] = "51234" ∧
    ("51234,51234" : String) ≠ "51234" :=
  ⟨by decide, by decide, by decide⟩

/-- C2 amended: the consolidator groups the (direction, stop) traversal by
exact case-sensitive name and emits, per distinct name in first-seen order,
exactly one `ConsolidatedStop` whose id is the comma-joined list of the ids of
all the group's occurrences in traversal order — duplicates included, no
deduplication — with the first occurrence's coordinates; a group with a single
occurrence yields that single underlying id.  Output names are pairwise
distinct. -/
theorem c2_consolidation_characterization (routeStopsData : List Stops.RouteDirectionStops) :
    Stops.groupedStops routeStopsData = Stops.consolidateByName routeStopsData ∧
    ((Stops.groupedStops routeStopsData).map (fun cs => cs.stopName)).Nodup := by
  have h1 : Stops.groupedStops routeStopsData = Stops.consolidateByName routeStopsData := by
    rw [Stops.groupedStops, Stops.consolidateByName, stopsByName_eq_canonGroups]
  refine ⟨h1, ?_⟩
  rw [h1, Stops.consolidateByName, List.map_map]
  have hmapeq : (Stops.canonGroups (Stops.flattenEntries routeStopsData)).map
      ((fun cs => cs.stopName) ∘ fun p => Stops.consolidateGroup p.1 p.2) =
      Stops.firstSeen ((Stops.flattenEntries routeStopsData).map (fun x => x.stopName)) := by
    rw [Stops.canonGroups, List.map_map]
    have hpt : ∀ n ∈ Stops.firstSeen
        ((Stops.flattenEntries routeStopsData).map (fun x => x.stopName)),
        (((fun cs => cs.stopName) ∘ fun p => Stops.consolidateGroup p.1 p.2) ∘
          fun n => (n, (Stops.flattenEntries routeStopsData).filter
            fun e => e.stopName == n)) n = id n := by
      intro n hn
      simp only [Function.comp, id]
      refine consolidateGroup_stopName n _ ?_
      intro e he
      simpa using (List.mem_filter.mp he).2
    rw [List.map_congr_left hpt, List.map_id]
  rw [hmapeq, Stops.firstSeen]
  exact firstSeenAux_nodup _ _

/-- Once an entry exists for a direction value, the candidate scan for that
direction changes nothing. -/
theorem scanCandidates_of_hasDirection (d destination : String) (stops : List String) :
    ∀ cs acc, StopDirections.hasDirection acc d = true →
      StopDirections.scanCandidates d destination stops cs acc = acc
  | [], acc, _ => rfl
  | c :: cs, acc, h => by
    have hcond : (stops.contains c && !StopDirections.hasDirection acc d) = false := by
      rw [h]; simp
    rw [StopDirections.scanCandidates, hcond, if_neg Bool.false_ne_true]
    exact scanCandidates_of_hasDirection d destination stops cs acc h

/-- Appending the entry for `d` makes `hasDirection` true. -/
theorem hasDirection_append_entry (acc : List StopDirections.DirectionEntry)
    (d destination c : String) :
    StopDirections.hasDirection (acc ++ [⟨d, destination, c⟩]) d = true := by
  simp [StopDirections.hasDirection]

/-- When no entry exists yet for a direction value, the candidate scan
appends exactly the first candidate contained in the direction's stop list
(or nothing when none is). -/
theorem scanCandidates_of_not_hasDirection (d destination : String) (stops : List String) :
    ∀ cs acc, StopDirections.hasDirection acc d = false →
      StopDirections.scanCandidates d destination stops cs acc =
        match cs.find? (fun c => stops.contains c) with
        | some c => acc ++ [⟨d, destination, c⟩]
        | none => acc
  | [], acc, _ => rfl
  | c :: cs, acc, h => by
    by_cases hc : stops.contains c = true
    · have hcond : (stops.contains c && !StopDirections.hasDirection acc d) = true := by
        rw [hc, h]; rfl
      rw [StopDirections.scanCandidates, hcond, if_pos rfl,
          scanCandidates_of_hasDirection d destination stops cs _
            (hasDirection_append_entry acc d destination c),
          List.find?_cons_of_pos _ hc]
    · rw [Bool.not_eq_true] at hc
      have hcond : (stops.contains c && !StopDirections.hasDirection acc d) = false := by
        rw [hc]; rfl
      rw [StopDirections.scanCandidates, hcond, if_neg Bool.false_ne_true,
          scanCandidates_of_not_hasDirection d destination stops cs acc h,
          List.find?_cons_of_neg _ (by rw [hc]; exact Bool.false_ne_true)]

/-- No entry for `d` in `acc` means every accumulated direction differs
from `d`. -/
theorem not_hasDirection_forall (acc : List StopDirections.DirectionEntry) (d : String)
    (h : StopDirections.hasDirection acc d = false) :
    ∀ e ∈ acc, e.direction ≠ d := by
  intro e he hed
  have htrue : StopDirections.hasDirection acc d = true := by
    unfold StopDirections.hasDirection
    exact List.any_eq_true.mpr ⟨e, he, by simp [hed]⟩
  rw [h] at htrue
  exact Bool.false_ne_true htrue

/-- The resolution loop preserves and establishes pairwise-distinct direction
values. -/
theorem resolveLoop_pairwise (cands : List String) :
    ∀ (rds : List Stops.RouteDirectionStops) (acc : List StopDirections.DirectionEntry),
      acc.Pairwise (fun a b => a.direction ≠ b.direction) →
      (StopDirections.resolveLoop cands rds acc).Pairwise
        (fun a b => a.direction ≠ b.direction)
  | [], acc, h => h
  | rd :: rest, acc, h => by
    rw [StopDirections.resolveLoop]
    refine resolveLoop_pairwise cands rest _ ?_
    by_cases hhd : StopDirections.hasDirection acc rd.Direction = true
    · rw [scanCandidates_of_hasDirection _ _ _ _ _ hhd]; exact h
    · rw [Bool.not_eq_true] at hhd
      rw [scanCandidates_of_not_hasDirection _ _ _ _ _ hhd]
      cases hf : (cands.find? fun c => (rd.Stops.map (·.StopId)).contains c) with
      | none => exact h
      | some c =>
        refine List.pairwise_append.mpr ⟨h, by simp, ?_⟩
        intro a ha b hb
        have hb1 : b = ⟨rd.Direction, rd.Destination, c⟩ := by simpa using hb
        rw [hb1]
        exact not_hasDirection_forall acc rd.Direction hhd a ha

/-- Every entry produced by the resolution loop either was already
accumulated or originates from some traversed route direction, carrying its
direction and destination and the first candidate contained in its stop
list. -/
theorem resolveLoop_mem (cands : List String) :
    ∀ (rds : List Stops.RouteDirectionStops) (acc : List StopDirections.DirectionEntry),
      ∀ e ∈ StopDirections.resolveLoop cands rds acc,
        e ∈ acc ∨ ∃ rd ∈ rds, e.direction = rd.Direction ∧
          e.destination = rd.Destination ∧
          cands.find? (fun c => (rd.Stops.map (·.StopId)).contains c) = some e.stopId
  | [], acc, e, he => Or.inl he
  | rd :: rest, acc, e, he => by
    rw [StopDirections.resolveLoop] at he
    rcases resolveLoop_mem cands rest _ e he with hacc | ⟨rd1, hrd1, hprop⟩
    · by_cases hhd : StopDirections.hasDirection acc rd.Direction = true
      · rw [scanCandidates_of_hasDirection _ _ _ _ _ hhd] at hacc
        exact Or.inl hacc
      · rw [Bool.not_eq_true] at hhd
        rw [scanCandidates_of_not_hasDirection _ _ _ _ _ hhd] at hacc
        cases hf : (cands.find? fun c => (rd.Stops.map (·.StopId)).contains c) with
        | none => rw [hf] at hacc; exact Or.inl hacc
        | some c =>
          rw [hf] at hacc
          rcases List.mem_append.mp hacc with h1 | h2
          · exact Or.inl h1
          · have he1 : e = ⟨rd.Direction, rd.Destination, c⟩ := by simpa using h2
            refine Or.inr ⟨rd, List.mem_cons_self rd rest, ?_⟩
            rw [he1, hf]
            exact ⟨rfl, rfl, rfl⟩
    · exact Or.inr ⟨rd1, List.mem_cons_of_mem rd hrd1, hprop⟩

/-- C3: `resolveDirections` splits the consolidated id on commas and trims
each piece; scanning route directions in traversal order it records at most
one entry per distinct direction value, whose stopId is the first candidate
contained in that direction's stop list; on the claim's example
"51234,51235" it returns the two entries with the correct single stop ids. -/
theorem c3_direction_resolver :
    (∀ (stop : String) (rds : List Stops.RouteDirectionStops),
       (StopDirections.resolveDirections stop rds).Pairwise
         (fun a b => a.direction ≠ b.direction) ∧
       ∀ e ∈ StopDirections.resolveDirections stop rds,
         ∃ rd ∈ rds, e.direction = rd.Direction ∧ e.destination = rd.Destination ∧
           (StopDirections.candidateIds stop).find?
             (fun c => (rd.Stops.map (·.StopId)).contains c) = some e.stopId) ∧
    StopDirections.resolveDirections "51234,51235"
      [{ Direction := "To SF", Destination := "San Francisco",
         Stops := [{ StopId := "50001", Name := "MacArthur Blvd", Latitude := 0, Longitude := 0 },
                   { StopId := "51235", Name := "103rd Avenue", Latitude := 0, Longitude := 0 }] },
       { Direction := "To Eastmont", Destination := "Eastmont",
         Stops := [{ StopId := "51234", Name := "103rd Avenue", Latitude := 0, Longitude := 0 }] }] =
      [{ direction := "To SF", destination := "San Francisco", stopId := "51235" },
       { direction := "To Eastmont", destination := "Eastmont", stopId := "51234" }] := by
  refine ⟨fun stop rds => ⟨?_, ?_⟩, by decide⟩
  · exact resolveLoop_pairwise (StopDirections.candidateIds stop) rds [] (by simp)
  · intro e he
    rcases resolveLoop_mem (StopDirections.candidateIds stop) rds [] e he with h | h
    · exact absurd h (by simp)
    · exact h

/-- C3 witness: the first returned entry of the example originates from the
"To SF" direction with stopId 51235, discharging the membership
hypothesis at a concrete input. -/
theorem c3_direction_resolver_witness :
    ∃ rd ∈ ([{ Direction := "To SF", Destination := "San Francisco",
               Stops := [{ StopId := "50001", Name := "MacArthur Blvd", Latitude := 0, Longitude := 0 },
                         { StopId := "51235", Name := "103rd Avenue", Latitude := 0, Longitude := 0 }] },
             { Direction := "To Eastmont", Destination := "Eastmont",
               Stops := [{ StopId := "51234", Name := "103rd Avenue", Latitude := 0, Longitude := 0 }] }] :
            List Stops.RouteDirectionStops),
      ({ direction := "To SF", destination := "San Francisco", stopId := "51235" } :
          StopDirections.DirectionEntry).direction = rd.Direction ∧
      ({ direction := "To SF", destination := "San Francisco", stopId := "51235" } :
          StopDirections.DirectionEntry).destination = rd.Destination ∧
      (StopDirections.candidateIds "51234,51235").find?
        (fun c => (rd.Stops.map (·.StopId)).contains c) =
        some ({ direction := "To SF", destination := "San Francisco", stopId := "51235" } :
          StopDirections.DirectionEntry).stopId :=
  (c3_direction_resolver.1 "51234,51235" _).2
    { direction := "To SF", destination := "San Francisco", stopId := "51235" } (by decide)

/-- C1: the claim says `parseAcTransitDateTime` interprets the wall-clock
fields as US Pacific time with the DST rule (offset -08:00 for 20240309,
-07:00 for 20240310) independently of the executing environment.  The code
instead builds the `Date` in the environment's local timezone: run in UTC (as
its comment assumes) it returns 2024-03-09T01:00Z for "20240309 01:00" where
the Pacific interpretation is 2024-03-09T09:00Z, and running it under a
PST-offset environment changes its answer, so it is not
environment-independent.  This contradicts the repository's own documentation
("The AcTransitClient handles DST correctly when converting to UTC"). -/
theorem c1_naive_parser_diverges_from_pacific_rule :
    AcTransitClient.parseAcTransitDateTime 0 "20240309 01:00" = some 1709946000000 ∧
    pacificNormalizeSpec "20240309 01:00" = some 1709974800000 ∧
    pacificNormalizeSpec "20240310 01:00" = some 1710057600000 ∧
    AcTransitClient.parseAcTransitDateTime 0 "20240309 01:00" ≠
      pacificNormalizeSpec "20240309 01:00" ∧
    AcTransitClient.parseAcTransitDateTime (-28800000) "20240309 01:00" ≠
      AcTransitClient.parseAcTransitDateTime 0 "20240309 01:00" :=
  ⟨by decide, by decide, by decide, by decide, by decide⟩

/-- C9 counterexample: "2024010112:00" does not match the fixed-width
"yyyyMMdd HH:mm" layout (no space at position 8), yet the parser does not
fail — it returns the valid instant 2024-01-01T02:00Z (run in UTC), because
the extracted substrings still parse numerically. -/
theorem c9_counterexample_nonmatching_input_returns_value :
    matchesLayout "2024010112:00" = false ∧
    AcTransitClient.parseAcTransitDateTime 0 "2024010112:00" = some 1704074400000 :=
  ⟨by decide, by decide⟩

/-- C9 amended: `parseAcTransitDateTime` raises no `ParseError` and performs
no layout validation; its failure channel is the Invalid-Date value — in
particular, whenever one of the five extracted fields fails numeric parsing
the result is an Invalid Date rather than an exception, while some inputs
that do not match the layout still yield an ordinary instant (see the
counterexample theorem). -/
theorem c9_field_nan_yields_invalid_date (envOffsetMs : Int) (s : String)
    (h : jsParseInt (jsSubstring s 0 4) = none ∨
         jsParseInt (jsSubstring s 4 6) = none ∨
         jsParseInt (jsSubstring s 6 8) = none ∨
         AcTransitClient.hoursField s = none ∨
         AcTransitClient.minutesField s = none) :
    AcTransitClient.parseAcTransitDateTime envOffsetMs s = none := by
  cases h1 : jsParseInt (jsSubstring s 0 4) <;>
    cases h2 : jsParseInt (jsSubstring s 4 6) <;>
      cases h3 : jsParseInt (jsSubstring s 6 8) <;>
        cases h4 : AcTransitClient.hoursField s <;>
          cases h5 : AcTransitClient.minutesField s <;>
            simp_all [AcTransitClient.parseAcTransitDateTime]

/-- C9 amended, witness: "garbage" yields an Invalid Date via its non-numeric
year field — no exception. -/
theorem c9_field_nan_yields_invalid_date_witness :
    AcTransitClient.parseAcTransitDateTime 0 "garbage" = none :=
  c9_field_nan_yields_invalid_date 0 "garbage" (Or.inl (by decide))

/-- C6: whenever the parsed envelope carries a non-empty agency-error array,
`AcTransitClient.getPredictions` fails with the first reported message (as an
"AC Transit API error" exception), whatever prediction data the envelope also
carries — the error check precedes the prediction mapping. -/
theorem c6_upstream_error_takes_precedence (stop : String)
    (env : AcTransitClient.AcEnvelope) (now : Int) (e : AcTransitClient.AcError)
    (es : List AcTransitClient.AcError) (h : env.error = some (e :: es)) :
    AcTransitClient.getPredictions stop "NL" env now =
      .error ("AC Transit API error: " ++ e.msg) := by
  simp [AcTransitClient.getPredictions, h]

/-- C6 witness: an envelope holding both a prediction and an error array
yields the error; the prediction is discarded. -/
theorem c6_upstream_error_takes_precedence_witness :
    AcTransitClient.getPredictions "55558" "NL"
      { prd := some [{ stpnm := "Uptown Transit Center", stpid := "55558",
                       vid := "1407", rt := "NL", rtdir := "To San Francisco",
                       prdtm := "20240615 18:32" }]
        error := some [{ msg := "No service scheduled" }] } 1718500000000 =
      .error "AC Transit API error: No service scheduled" :=
  c6_upstream_error_takes_precedence "55558" _ 1718500000000
    { msg := "No service scheduled" } [] rfl

/-- C8 counterexample: an upstream structured error payload ("No service
scheduled") is answered with HTTP 500 and the generic body "Failed to fetch
transit predictions" — not with the claimed 400 carrying the upstream message
verbatim. -/
theorem c8_counterexample_upstream_error_yields_500 :
    TransitPredictions.handleAcTransit "55558" "NL" none
      { prd := some [], error := some [{ msg := "No service scheduled" }] } 0 =
      .err 500 "Failed to fetch transit predictions" ∧
    (500 : Nat) ≠ 400 ∧
    "Failed to fetch transit predictions" ≠ "No service scheduled" :=
  ⟨by decide, by decide, by decide⟩

/-- C8 amended: when the upstream envelope reports a structured error, the
prediction endpoint responds 500 with the generic message "Failed to fetch
transit predictions" — the upstream message is not forwarded (the catch block
forwards a message verbatim with status 400 only when it contains "Only NL
route", which an upstream payload message does not). -/
theorem c8_upstream_error_maps_to_500_generic (stop : String)
    (direction : Option String) (env : AcTransitClient.AcEnvelope) (now : Int)
    (e : AcTransitClient.AcError) (es : List AcTransitClient.AcError)
    (h : env.error = some (e :: es))
    (hmsg : jsIncludes ("AC Transit API error: " ++ e.msg) "Only NL route" = false) :
    TransitPredictions.handleAcTransit stop "NL" direction env now =
      .err 500 "Failed to fetch transit predictions" := by
  simp [TransitPredictions.handleAcTransit, AcTransitClient.getPredictions, h,
        TransitPredictions.mapCaughtError, hmsg]

/-- C8 amended, witness at a concrete envelope. -/
theorem c8_upstream_error_maps_to_500_generic_witness :
    TransitPredictions.handleAcTransit "50030" "NL" (some "To SF")
      { prd := none, error := some [{ msg := "No arrival times" }] } 42 =
      .err 500 "Failed to fetch transit predictions" :=
  c8_upstream_error_maps_to_500_generic "50030" (some "To SF") _ 42
    { msg := "No arrival times" } [] rfl (by decide)

/-- C10: for any route other than the literal "NL" the bus client throws
"Only NL route is currently supported" independently of the upstream payload
(the check precedes the HTTP call in the source), and the prediction endpoint
surfaces exactly this message with HTTP status 400. -/
theorem c10_non_nl_route_rejected (stop route : String) (direction : Option String)
    (env : AcTransitClient.AcEnvelope) (now : Int) (h : route ≠ "NL") :
    AcTransitClient.getPredictions stop route env now =
      .error "Only NL route is currently supported" ∧
    TransitPredictions.handleAcTransit stop route direction env now =
      .err 400 "Only NL route is currently supported" := by
  refine ⟨by simp [AcTransitClient.getPredictions, h], ?_⟩
  simp only [TransitPredictions.handleAcTransit, AcTransitClient.getPredictions,
             if_pos h]
  decide

/-- C10 witness: route "6" is rejected with a 400 carrying the message. -/
theorem c10_non_nl_route_rejected_witness :
    AcTransitClient.getPredictions "55558" "6" { prd := none, error := none } 0 =
      .error "Only NL route is currently supported" ∧
    TransitPredictions.handleAcTransit "55558" "6" none
      { prd := none, error := none } 0 =
      .err 400 "Only NL route is currently supported" :=
  c10_non_nl_route_rejected "55558" "6" none { prd := none, error := none } 0
    (by decide)

end NextTrain
